import Mathlib

/-!
# ShuftiPro KYC verification-session ledger — shallow embedding

This file embeds the core of `src/service/ShuftiProKyc.js` (session
resolver/creator, webhook reconciler, status override, signature codec,
rate guard) into Lean 4 and proves the specification claims about it.

Conventions of the embedding:
* JavaScript strings are Lean `String`s; absent object fields (`undefined`)
  are `none` of an `Option`; JSON `null` stored in a field is also `none`
  (the code only ever distinguishes them through `||` / `??`, both of which
  treat `null` and `undefined` alike for these values, except that `||`
  also treats `""` as falsy — captured by `jsOrS`).
* The external key-value store (`ScyllaDb`, consumed through the
  `putItem` / `getItem` / `query` contract of spec section 6, corroborated by the
  in-memory mock shipped with the repository) is a list of rows in
  insertion order; `putItem` upserts by the `(pk, sk)` key, `query`
  filters by partition value.
* `crypto.createHash("sha256")` is external to the repository; the hash is
  an explicit function parameter `hash : String → String`.
* Asynchronous effects (the provider HTTP call, `Date.now()`,
  `new Date().toISOString()`, `Math.random`, `JSON.parse`) enter as
  explicit parameters; `throw` becomes `Except.error`.
* `Logger.writeLog` / `ErrorHandler.add_error` side effects that the claims
  observe are returned as explicit event lists.
-/

namespace ShuftiPro

/-! ## JavaScript string helpers -/

/-- Whitespace characters stripped by JavaScript `String.prototype.trim`
(the ASCII ones plus NBSP; the values handled here — hex digests, locale
tags — only ever contain ASCII). -/
def isJsWhitespace (c : Char) : Bool :=
  c = ' ' || c = '\t' || c = '\n' || c = '\r' ||
  c = (Char.ofNat 11) || c = (Char.ofNat 12) || c = (Char.ofNat 160)

/-- `l` with leading and trailing JS whitespace removed. -/
def trimList (l : List Char) : List Char :=
  ((l.dropWhile isJsWhitespace).reverse.dropWhile isJsWhitespace).reverse

/-- JavaScript `String.prototype.trim`. -/
def jsTrim (s : String) : String := String.mk (trimList s.data)

/-- JavaScript `a || d` for a possibly-absent string `a` and a plain string
default `d`: `undefined`, `null` and `""` are falsy. -/
def jsOrS (a : Option String) (d : String) : String :=
  match a with
  | some s => if s = "" then d else s
  | none => d

/-- JavaScript `a || null` for a possibly-absent string: a falsy value
(absent or `""`) collapses to `null`/`none`. -/
def jsOrNull (a : Option String) : Option String :=
  match a with
  | some s => if s = "" then none else some s
  | none => none

/-- JavaScript `a ?? b` on option values (`null`/`undefined` fall through,
`""` does not). -/
def optOr {α : Type} (a b : Option α) : Option α :=
  match a with
  | some x => some x
  | none => b

/-- Replace the character at position `i` of `s` by `c`
(a model of a single-character mutation of a string). -/
def mutateAt (s : String) (i : Nat) (c : Char) : String :=
  String.mk (s.data.set i c)

/-! ## Signature codec

`verifyShuftiSignature` is `src/service/ShuftiProKyc.js` lines 678-689;
`signatureFor` is the helper of `src/unnamed/part_003` (`tinyHelper`).
`hash` stands for hex-encoded SHA-256, which lives in node's `crypto`
module, outside this repository. -/

/-- `signatureFor(raw, secret)`: `inner = hash(secret)`,
`tag = hash(String(raw) + inner)`. -/
def signatureFor (hash : String → String) (raw secret : String) : String :=
  hash (raw ++ hash secret)

/-- `verifyShuftiSignature(rawBodyString, signatureHeaderValue)` for string
inputs, with the configured secret passed explicitly. Empty body or empty
tag is falsy and rejected; otherwise the recomputed tag is compared with
the trimmed header value. -/
def verifyShuftiSignature (hash : String → String) (secret : String)
    (rawBodyString signatureHeaderValue : String) : Bool :=
  if rawBodyString = "" ∨ signatureHeaderValue = "" then false
  else signatureFor hash rawBodyString secret == jsTrim signatureHeaderValue

/-! ### JavaScript values, for the totality/failure-safety claim -/

/-- A JavaScript value that can reach `verifyShuftiSignature` from the
webhook boundary (floats and symbols aside; `num` models integral
numbers). -/
inductive JSValue where
  | null : JSValue
  | undef : JSValue
  | bool (b : Bool) : JSValue
  | num (n : Int) : JSValue
  | str (s : String) : JSValue
deriving DecidableEq

/-- JavaScript truthiness test `!v` (true when `v` is falsy). -/
def jsFalsy : JSValue → Bool
  | .null => true
  | .undef => true
  | .bool b => !b
  | .num n => n == 0
  | .str s => s == ""

/-- JavaScript `String(v)` coercion. -/
def jsToString : JSValue → String
  | .null => "null"
  | .undef => "undefined"
  | .bool b => if b then "true" else "false"
  | .num n => toString n
  | .str s => s

/-- `verifyShuftiSignature` on arbitrary JavaScript inputs: the function
guards with `!rawBodyString || !signatureHeaderValue` and then only ever
uses `String(...)` coercions, so it is total (returns a `Bool`, never
throws). -/
def verifyShuftiSignatureJS (hash : String → String) (secret : String)
    (rawBodyString signatureHeaderValue : JSValue) : Bool :=
  if jsFalsy rawBodyString || jsFalsy signatureHeaderValue then false
  else
    signatureFor hash (jsToString rawBodyString) secret ==
      jsTrim (jsToString signatureHeaderValue)

/-! ## Data model: rows and the store -/

/-- Projection of a JSON document onto the fields the service reads
(`payload?.reference`, `payload?.event`, `payload?.user_id`,
`parsed?.verification_url`). -/
structure Payload where
  reference : Option String := none
  event : Option String := none
  user_id : Option String := none
  verification_url : Option String := none
deriving DecidableEq

/-- The ten always-present verification-instruction flags of the request
payload (all default `"1"` in the source). -/
structure VerificationInstructions where
  allow_paper_based : String
  allow_photocopy : String
  allow_colorcopy : String
  allow_black_and_white : String
  allow_laminated : String
  allow_screenshot : String
  allow_cropped : String
  allow_scanned : String
  allow_e_document : String
  allow_handwritten_document : String
deriving DecidableEq

/-- Caller-supplied overrides spread over the instruction defaults
(`...(documentConfig.verification_instructions || {})`): an absent key is
`none`. -/
structure ViOverride where
  allow_paper_based : Option String := none
  allow_photocopy : Option String := none
  allow_colorcopy : Option String := none
  allow_black_and_white : Option String := none
  allow_laminated : Option String := none
  allow_screenshot : Option String := none
  allow_cropped : Option String := none
  allow_scanned : Option String := none
  allow_e_document : Option String := none
  allow_handwritten_document : Option String := none
deriving DecidableEq

/-- Spread-merge of the defaults (all `"1"`) with the caller overrides. -/
def mergeInstructions (ov : ViOverride) : VerificationInstructions where
  allow_paper_based := ov.allow_paper_based.getD "1"
  allow_photocopy := ov.allow_photocopy.getD "1"
  allow_colorcopy := ov.allow_colorcopy.getD "1"
  allow_black_and_white := ov.allow_black_and_white.getD "1"
  allow_laminated := ov.allow_laminated.getD "1"
  allow_screenshot := ov.allow_screenshot.getD "1"
  allow_cropped := ov.allow_cropped.getD "1"
  allow_scanned := ov.allow_scanned.getD "1"
  allow_e_document := ov.allow_e_document.getD "1"
  allow_handwritten_document := ov.allow_handwritten_document.getD "1"

/-- The caller's `documentConfig` argument. -/
structure DocumentConfig where
  name : Option String := none
  dob : Option String := none
  fetch_enhanced_data : Option String := none
  supported_types : Option (List String) := none
  verification_instructions : ViOverride := {}
deriving DecidableEq

/-- The `document` sub-object of the provider request payload. -/
structure DocumentPayload where
  name : String
  dob : String
  fetch_enhanced_data : String
  supported_types : List String
  verification_instructions : VerificationInstructions
deriving DecidableEq

/-- The provider request payload built by `createVerificationSession`. -/
structure RequestPayload where
  reference : String
  email : String
  country : String
  language : String
  verification_mode : String
  allow_offline : String
  allow_online : String
  show_privacy_policy : String
  show_results : String
  show_consent : String
  show_feedback_form : String
  manual_review : String
  callback_url : Option String
  redirect_url : Option String
  document : DocumentPayload
deriving DecidableEq

/-- One stored row. JavaScript rows are open objects; this structure has a
field for every attribute any modelled write puts on a row, `none` when
the writing site does not set it. `pk`/`sk` form the primary key, `ppk`
is the GSI partition value (the reference), per `CONFIG.KEYS`. -/
structure Row where
  pk : String
  sk : String
  ppk : Option String := none
  created_at : Option String := none
  type : Option String := none
  userId : Option String := none
  reference : Option String := none
  event : Option String := none
  status : Option String := none
  lastEvent : Option String := none
  lastEventAt : Option String := none
  verificationUrl : Option String := none
  language : Option String := none
  newStatus : Option String := none
  requestPayload : Option RequestPayload := none
  responsePayload : Option Payload := none
  webhookPayload : Option Payload := none
  context : Option String := none
  countInLastMinute : Option Nat := none
deriving DecidableEq

/-- The single-table store: rows in insertion order (the in-memory adapter
is a JS `Map`, whose iteration order is insertion order; an upsert of an
existing key keeps its position). -/
abbrev Store := List Row

/-- `ScyllaDb.putItem`: upsert keyed by `(pk, sk)` — JS `Map.set`: replace
the entry holding the key (keeping its position), else append. -/
def putItem : Store → Row → Store
  | [], item => [item]
  | x :: rest, item =>
    if x.pk = item.pk ∧ x.sk = item.sk then item :: rest
    else x :: putItem rest item

/-- `ScyllaDb.getItem`: point lookup, `none` when absent. -/
def getItem (store : Store) (pkVal skVal : String) : Option Row :=
  store.find? (fun x => x.pk == pkVal && x.sk == skVal)

/-- `ScyllaDb.query` on the primary index (`pk = :pk`, `Limit`). The
adapter promises no order; this model returns matches in store order. -/
def queryByPk (store : Store) (pkVal : String) (limit : Nat) : List Row :=
  (store.filter (fun x => x.pk == pkVal)).take limit

/-- `ScyllaDb.query` on the GSI (`ppk = :ref`, `IndexName: "GSI1"`). The
partition value is whatever the caller passes, hence `Option String`. -/
def queryByRef (store : Store) (ref : Option String) : List Row :=
  store.filter (fun x => x.ppk == ref)

/-- `pickMeta(items)`: first row of type `"meta"`, else nothing. -/
def pickMeta (items : List Row) : Option Row :=
  items.find? (fun it => it.type == some "meta")

/-- The meta-resolution step shared by the session-resolver scan and the
webhook reconciler (`pickMeta(latestByRef) || latestByRef[0] || null`
over the reversed GSI query result — note: no point-lookup fallback
here). -/
def resolveMetaScan (store : Store) (ref : Option String) : Option Row :=
  optOr (pickMeta ((queryByRef store ref).reverse))
    ((queryByRef store ref).reverse).head?

/-- Modelled from the spec: the three-step preference order that spec
section 4.3 step 2 asserts for the resolver and the reconciler — meta row
from the GSI query, else an arbitrary row from that query, else a direct
point lookup by the `meta_<reference>` key. (In the source this third
step appears only in `updateRecordStatus` / `getRecordByReference`.) -/
def resolveMetaSpec (store : Store) (ref : String) : Option Row :=
  let latestByRef := (queryByRef store (some ref)).reverse
  optOr (optOr (pickMeta latestByRef) latestByRef.head?)
    (getItem store ("meta_" ++ ref) "meta")

/-! ## Configuration and event constants -/

/-- The configuration fields the modelled operations read (`CONFIG`). -/
structure Config where
  SECRET_KEY : String := ""
  CALLBACK_URL : String := ""
  REDIRECT_URL : String := ""
  DEFAULT_LANGUAGE : String := "en"
  LOCALE_MAP : List (String × String) :=
    [("en", "en"), ("en-AU", "en"), ("en-GB", "en"), ("en-US", "en"),
     ("zh", "zh"), ("zh-CN", "zh"), ("zh-TW", "zh"), ("ja", "ja"),
     ("ko", "ko"), ("tl", "tl"), ("fr", "fr"), ("de", "de"), ("es", "es"),
     ("it", "it"), ("pt", "pt"), ("ru", "ru")]
  PER_MINUTE_LIMIT : Nat := 60
deriving DecidableEq

/-- `KYC_EVENT.VERIFICATION_ACCEPTED`. -/
def VERIFICATION_ACCEPTED : String := "verification.accepted"

/-- `KYC_EVENT.VERIFICATION_STATUS_CHANGED`. -/
def VERIFICATION_STATUS_CHANGED : String := "verification.status.changed"

/-- The `ACTIVE_EVENTS` set. -/
def ACTIVE_EVENTS : List String :=
  ["request.pending", "request.received", "review.pending",
   "verification.status.changed"]

/-- JavaScript object-key lookup on the locale map (`undefined` when the
key is absent). -/
def jsLookup (m : List (String × String)) (k : String) : Option String :=
  (m.find? (fun p => p.1 == k)).map (fun p => p.2)

/-- `key.split("-")[0]`. -/
def splitHead (s : String) : String :=
  String.mk (s.data.takeWhile (fun c => c ≠ '-'))

/-- `normalizeLocaleToLanguage(appLocale)`: exact map hit, else primary
subtag hit, else the configured default. -/
def normalizeLocaleToLanguage (cfg : Config) (appLocale : String) : String :=
  if appLocale = "" then cfg.DEFAULT_LANGUAGE
  else
    let key := jsTrim appLocale
    jsOrS (jsLookup cfg.LOCALE_MAP key)
      (jsOrS (jsLookup cfg.LOCALE_MAP (splitHead key)) cfg.DEFAULT_LANGUAGE)

/-- `generateReference()` with its two effect inputs (`Date.now()` and the
drawn random number) made explicit. -/
def generateReference (nowMs : Int) (rand : Nat) : String :=
  "ref-" ++ toString nowMs ++ "-" ++ toString rand

/-! ## Rate guard -/

/-- One `Logger.writeLog` call, projected onto flag/action/critical. -/
structure LogEvent where
  flag : String
  action : String
  critical : Bool := false
deriving DecidableEq

/-- The `rate_limit` system row persisted on a breach. -/
def rateLimitRow (contextLabel : String) (nowIso : String) (count : Nat) : Row :=
  { pk := "system_shufti", sk := nowIso, ppk := some "rate_limit",
    created_at := some nowIso, type := some "rate_limit",
    context := some contextLabel, countInLastMinute := some count }

/-- Output of one accounted rate-guard call: the new timestamp window, the
store, the advisory rows written by this call and the advisory log events
emitted by this call. -/
structure GuardOut where
  timestamps : List Int
  store : Store
  emitted : List Row
  logs : List LogEvent
deriving DecidableEq

/-- `registerLocalRateAndMaybeAlert(contextLabel)`: push `now`, drop
entries older than 60 s from the front, and alert (one log event plus one
persisted system row) exactly when the resulting count exceeds
`PER_MINUTE_LIMIT`. Always returns; never rejects the call. -/
def registerLocalRateAndMaybeAlert (cfg : Config) (contextLabel : String)
    (nowMs : Int) (nowIso : String) (timestamps : List Int)
    (store : Store) : GuardOut :=
  let pruned := (timestamps ++ [nowMs]).dropWhile (fun t => 60000 < nowMs - t)
  let count := pruned.length
  if cfg.PER_MINUTE_LIMIT < count then
    let row := rateLimitRow contextLabel nowIso count
    ⟨pruned, putItem store row, [row], [⟨"kyc_rate_limit", "breach", true⟩]⟩
  else ⟨pruned, store, [], []⟩

/-- One accounted call of a rate-guard run (its `Date.now()`, its ISO
timestamp, its context label). -/
structure GuardCall where
  nowMs : Int
  nowIso : String
  contextLabel : String
deriving DecidableEq

/-- A sequence of accounted calls threaded through the guard, collecting
each call's output. -/
def guardRun (cfg : Config) (timestamps : List Int) (store : Store) :
    List GuardCall → List GuardOut
  | [] => []
  | c :: rest =>
    let o := registerLocalRateAndMaybeAlert cfg c.contextLabel c.nowMs
      c.nowIso timestamps store
    o :: guardRun cfg o.timestamps o.store rest

/-! ## Session resolver -/

/-- The validated caller inputs (`clean`), as returned by the external
`SafeUtils.sanitizeValidate` (modelled as a precondition: these are the
post-validation values). -/
structure CleanInputs where
  userId : String
  userEmail : String
  appLocale : Option String := none
  userCountry : String := ""
  verificationMode : String := "any"
deriving DecidableEq

/-- The three result shapes of `createVerificationSession`. -/
inductive CreateResult where
  | alreadyValidated (reference : Option String) (status : String)
      (verificationUrl : Option String)
  | alreadyHasActive (reference : Option String) (status : String)
      (verificationUrl : Option String)
  | created (reference : String) (verificationUrl : Option String)
deriving DecidableEq

/-- The hard errors `createVerificationSession` can throw after
validation. -/
inductive CreateErr where
  | networkError (message : String)
  | invalidJson
  | invalidSignature
deriving DecidableEq

/-- `status = meta?.status || item.event || "unknown"` for one scanned
timeline entry. -/
def derivedStatus (store : Store) (item : Row) : String :=
  let meta := resolveMetaScan store item.reference
  jsOrS (meta.bind Row.status) (jsOrS item.event "unknown")

/-- `verificationUrl = meta?.verificationUrl ?? item.verificationUrl ?? null`
for one scanned timeline entry. -/
def derivedUrl (store : Store) (item : Row) : Option String :=
  let meta := resolveMetaScan store item.reference
  optOr (meta.bind Row.verificationUrl) item.verificationUrl

/-- The resolver loop of `createVerificationSession`: walk the (reversed)
timeline; ACCEPTED returns immediately; the first ACTIVE entry is
remembered and the scan continues; at the end the remembered candidate
(if any) is the answer. -/
def scanTimeline (store : Store) :
    List Row → Option CreateResult → Option CreateResult
  | [], activeCandidate => activeCandidate
  | item :: rest, activeCandidate =>
    if item.type ≠ some "verification_request" then
      scanTimeline store rest activeCandidate
    else
      let status := derivedStatus store item
      if status = VERIFICATION_ACCEPTED then
        some (.alreadyValidated item.reference status (derivedUrl store item))
      else if activeCandidate = none ∧ status ∈ ACTIVE_EVENTS then
        scanTimeline store rest
          (some (.alreadyHasActive item.reference status (derivedUrl store item)))
      else scanTimeline store rest activeCandidate

/-! ## Session creator -/

/-- The provider request payload as built in the source (fixed flow flags,
document sub-object, merged instructions, optional callback/redirect). -/
def buildRequestPayload (cfg : Config)
    (reference email country language verification_mode : String)
    (dc : DocumentConfig) : RequestPayload where
  reference := reference
  email := email
  country := country
  language := language
  verification_mode := verification_mode
  allow_offline := "1"
  allow_online := "1"
  show_privacy_policy := "0"
  show_results := "1"
  show_consent := "0"
  show_feedback_form := "0"
  manual_review := "0"
  callback_url := if cfg.CALLBACK_URL = "" then none else some cfg.CALLBACK_URL
  redirect_url := if cfg.REDIRECT_URL = "" then none else some cfg.REDIRECT_URL
  document :=
    { name := dc.name.getD ""
      dob := dc.dob.getD ""
      fetch_enhanced_data := dc.fetch_enhanced_data.getD "1"
      supported_types :=
        dc.supported_types.getD ["id_card", "driving_license", "passport"]
      verification_instructions := mergeInstructions dc.verification_instructions }

/-- The provider HTTP exchange, as seen by the function after `await`:
either the fetch threw, or a response with status/headers/body text. -/
structure FetchResponse where
  ok : Bool
  status : Nat
  signatureHeader : String
  bodyText : String
deriving DecidableEq

/-- Outcome of the `fetch` call. -/
inductive FetchOutcome where
  | networkError (message : String)
  | response (res : FetchResponse)
deriving DecidableEq

instance {ε α : Type} [DecidableEq ε] [DecidableEq α] :
    DecidableEq (Except ε α)
  | .error e, .error f => decidable_of_iff (e = f) (by simp)
  | .ok x, .ok y => decidable_of_iff (x = y) (by simp)
  | .error _, .ok _ => isFalse (by simp)
  | .ok _, .error _ => isFalse (by simp)

/-- Everything `createVerificationSession` leaves behind: the returned (or
thrown) value, the store, the rate-guard window and the error-sink
records, in emission order. -/
structure CreateOutcome where
  result : Except CreateErr CreateResult
  store : Store
  timestamps : List Int
  errors : List String
deriving DecidableEq

/-- The `verification_request` timeline row persisted on creation. -/
def vrTimelineRow (clean : CleanInputs) (reference created_at event : String)
    (verificationUrl : Option String) (payload : RequestPayload)
    (parsed : Payload) (language : String) : Row :=
  { pk := "user_" ++ clean.userId, sk := created_at, ppk := some reference,
    created_at := some created_at, type := some "verification_request",
    userId := some clean.userId, reference := some reference,
    event := some event, verificationUrl := verificationUrl,
    requestPayload := some payload, responsePayload := some parsed,
    language := some language }

/-- The meta projection row persisted on creation. -/
def vrMetaRow (clean : CleanInputs) (reference created_at event : String)
    (verificationUrl : Option String) (language : String) : Row :=
  { pk := "meta_" ++ reference, sk := "meta", ppk := some reference,
    created_at := some created_at, type := some "meta",
    userId := some clean.userId, reference := some reference,
    status := some event, verificationUrl := verificationUrl,
    language := some language }

/-- The create-new phase of `createVerificationSession` (everything after
the resolver scan found nothing to reuse): account the rate guard, build
the payload, call the provider, validate the response in source order
(parse, non-200 record, signature), persist the attempt. -/
def createNewSession (cfg : Config) (hash : String → String)
    (parse : String → Option Payload) (clean : CleanInputs)
    (documentConfig : DocumentConfig) (fetchOut : FetchOutcome)
    (nowMs : Int) (rand : Nat) (created_at : String)
    (timestamps : List Int) (store : Store) : CreateOutcome :=
  let g := registerLocalRateAndMaybeAlert cfg "createVerificationSession"
    nowMs created_at timestamps store
  let reference := generateReference nowMs rand
  let language :=
    normalizeLocaleToLanguage cfg (jsOrS clean.appLocale cfg.DEFAULT_LANGUAGE)
  let payload := buildRequestPayload cfg reference clean.userEmail
    clean.userCountry language clean.verificationMode documentConfig
  match fetchOut with
  | .networkError msg =>
    ⟨.error (.networkError msg), g.store, g.timestamps,
      ["KYC network error (createVerificationSession)"]⟩
  | .response res =>
    let rawBody := res.bodyText
    match (if rawBody = "" then some {} else parse rawBody) with
    | none =>
      ⟨.error .invalidJson, g.store, g.timestamps, ["KYC response invalid JSON"]⟩
    | some parsed =>
      let errs0 := if res.ok then [] else ["KYC response non-200"]
      if verifyShuftiSignature hash cfg.SECRET_KEY rawBody res.signatureHeader then
        let event := jsOrS parsed.event "unknown"
        let verificationUrl := jsOrNull parsed.verification_url
        ⟨.ok (.created reference verificationUrl),
          putItem
            (putItem g.store
              (vrTimelineRow clean reference created_at event verificationUrl
                payload parsed language))
            (vrMetaRow clean reference created_at event verificationUrl language),
          g.timestamps, errs0⟩
      else
        ⟨.error .invalidSignature, g.store, g.timestamps,
          errs0 ++ ["KYC response signature invalid"]⟩

/-- `createVerificationSession`: fetch the user timeline (primary index,
limit 50), reverse it, scan for a reusable attempt, and otherwise fall
through to the create-new phase. -/
def createVerificationSession (cfg : Config) (hash : String → String)
    (parse : String → Option Payload) (clean : CleanInputs)
    (documentConfig : DocumentConfig) (fetchOut : FetchOutcome)
    (nowMs : Int) (rand : Nat) (created_at : String)
    (timestamps : List Int) (store : Store) : CreateOutcome :=
  match scanTimeline store ((queryByPk store ("user_" ++ clean.userId) 50).reverse) none with
  | some r => ⟨.ok r, store, timestamps, []⟩
  | none => createNewSession cfg hash parse clean documentConfig fetchOut
      nowMs rand created_at timestamps store

/-! ## Webhook reconciler -/

/-- Result shape of `handleWebhook`: `{ok: false}` or
`{ok: true, reference, event}`. -/
inductive WebhookResult where
  | failed
  | stored (reference event : String)
deriving DecidableEq

/-- Everything `handleWebhook` leaves behind. The function never throws on
malformed or unauthenticated input: its result type is not `Except`. -/
structure WebhookOut where
  result : WebhookResult
  store : Store
  errors : List String
deriving DecidableEq

/-- The `webhook_event` timeline row. -/
def webhookEventRow (userId created_at reference event : String)
    (payload : Payload) : Row :=
  { pk := "user_" ++ userId, sk := created_at, ppk := some reference,
    created_at := some created_at, type := some "webhook_event",
    userId := some userId, reference := some reference, event := some event,
    webhookPayload := some payload }

/-- The meta row written by the reconciler: status/lastEvent/lastEventAt
from the webhook, `verificationUrl`/`language`/original `created_at`
carried over from the previously resolved meta when present. -/
def webhookMetaRow (cfg : Config) (userId created_at reference event : String)
    (meta : Option Row) : Row :=
  { pk := "meta_" ++ reference, sk := "meta", ppk := some reference,
    created_at := some ((meta.bind Row.created_at).getD created_at),
    type := some "meta", userId := some userId, reference := some reference,
    status := some event, lastEvent := some event,
    lastEventAt := some created_at,
    verificationUrl := meta.bind Row.verificationUrl,
    language := some ((meta.bind Row.language).getD cfg.DEFAULT_LANGUAGE) }

/-- `handleWebhook({rawBodyString, signatureHeader})`: verify the tag,
parse the body, resolve the reference's meta (GSI preference order, no
point-lookup fallback), append the webhook row, overwrite the meta row. -/
def handleWebhook (cfg : Config) (hash : String → String)
    (parse : String → Option Payload)
    (rawBodyString signatureHeader created_at : String)
    (store : Store) : WebhookOut :=
  if verifyShuftiSignature hash cfg.SECRET_KEY rawBodyString signatureHeader then
    match parse rawBodyString with
    | none => ⟨.failed, store, ["KYC webhook invalid JSON"]⟩
    | some payload =>
      let reference := jsOrS payload.reference "unknown"
      let event := jsOrS payload.event "unknown"
      let meta := resolveMetaScan store (some reference)
      let userId := jsOrS (meta.bind Row.userId) (jsOrS payload.user_id "unknown")
      ⟨.stored reference event,
        putItem
          (putItem store (webhookEventRow userId created_at reference event payload))
          (webhookMetaRow cfg userId created_at reference event meta),
        []⟩
  else ⟨.failed, store, ["KYC webhook signature invalid"]⟩

/-! ## Manual status override -/

/-- Everything `updateRecordStatus` leaves behind. -/
structure UpdateOut where
  result : Bool
  store : Store
  errors : List String
deriving DecidableEq

/-- The overwritten meta row of `updateRecordStatus`. -/
def updateMetaRow (cfg : Config) (reference newStatus created_at : String)
    (meta : Row) : Row :=
  { pk := "meta_" ++ reference, sk := "meta", ppk := some reference,
    created_at := some (meta.created_at.getD created_at),
    type := some "meta", userId := meta.userId, reference := some reference,
    status := some newStatus, lastEvent := some newStatus,
    lastEventAt := some created_at,
    verificationUrl := meta.verificationUrl,
    language := some (meta.language.getD cfg.DEFAULT_LANGUAGE) }

/-- The `status_change` timeline row of `updateRecordStatus` (the user
partition is a template literal, so an absent `userId` stringifies to
`"undefined"`). -/
def statusChangeRow (reference newStatus created_at : String)
    (meta : Row) : Row :=
  { pk := "user_" ++ meta.userId.getD "undefined", sk := created_at,
    ppk := some reference, created_at := some created_at,
    type := some "status_change", userId := meta.userId,
    reference := some reference,
    event := some VERIFICATION_STATUS_CHANGED,
    newStatus := some newStatus }

/-- `updateRecordStatus(reference, newStatus)`: resolve the meta (GSI
preference order, then the point-lookup fallback); absent → `false`, no
write; present → overwrite the meta row, append a `status_change` row,
return `true`. -/
def updateRecordStatus (cfg : Config) (reference newStatus created_at : String)
    (store : Store) : UpdateOut :=
  match optOr
      (optOr (pickMeta ((queryByRef store (some reference)).reverse))
        ((queryByRef store (some reference)).reverse.head?))
      (getItem store ("meta_" ++ reference) "meta") with
  | none => ⟨false, store, ["KYC updateRecordStatus: meta not found"]⟩
  | some m =>
    ⟨true,
      putItem (putItem store (updateMetaRow cfg reference newStatus created_at m))
        (statusChangeRow reference newStatus created_at m),
      []⟩

/-! ## Helper lemmas -/

lemma trimList_length_le (l : List Char) : (trimList l).length ≤ l.length := by
  unfold trimList
  have h1 := (List.dropWhile_suffix (l := l) isJsWhitespace).length_le
  have h2 := (List.dropWhile_suffix
    (l := (l.dropWhile isJsWhitespace).reverse) isJsWhitespace).length_le
  simp only [List.length_reverse] at *
  omega

lemma trimList_eq_of_length (l : List Char)
    (h : (trimList l).length = l.length) : trimList l = l := by
  unfold trimList at *
  have hba := (List.dropWhile_suffix
    (l := (l.dropWhile isJsWhitespace).reverse) isJsWhitespace).length_le
  have hal := (List.dropWhile_suffix (l := l) isJsWhitespace).length_le
  simp only [List.length_reverse] at h hba
  have hb : ((l.dropWhile isJsWhitespace).reverse.dropWhile isJsWhitespace)
      = (l.dropWhile isJsWhitespace).reverse :=
    (List.dropWhile_suffix isJsWhitespace).eq_of_length (by simp; omega)
  have ha : l.dropWhile isJsWhitespace = l :=
    (List.dropWhile_suffix isJsWhitespace).eq_of_length (by omega)
  rw [hb, List.reverse_reverse, ha]

lemma string_length_data (s : String) : s.length = s.data.length := rfl

lemma jsTrim_length_le (s : String) : (jsTrim s).length ≤ s.length :=
  trimList_length_le s.data

lemma jsTrim_eq_of_length (s : String)
    (h : (jsTrim s).length = s.length) : jsTrim s = s := by
  cases s with
  | mk l =>
    show String.mk (trimList l) = String.mk l
    rw [trimList_eq_of_length l h]

lemma string_eq_empty_iff (s : String) : s = "" ↔ s.length = 0 := by
  cases s with
  | mk l =>
    constructor
    · intro h; rw [h]; rfl
    · intro h
      have : l = [] := List.length_eq_zero.mp h
      rw [this]

lemma mutateAt_data (s : String) (i : Nat) (c : Char) :
    (mutateAt s i c).data = s.data.set i c := rfl

lemma mutateAt_length (s : String) (i : Nat) (c : Char) :
    (mutateAt s i c).length = s.length := by
  rw [string_length_data, string_length_data, mutateAt_data, List.length_set]

lemma mutateAt_ne (s : String) (i : Nat) (c : Char)
    (hi : i < s.length) (hc : s.data[i]? ≠ some c) : mutateAt s i c ≠ s := by
  intro h
  have hdata : (mutateAt s i c).data = s.data := congrArg String.data h
  rw [mutateAt_data] at hdata
  have h2 : (s.data.set i c)[i]? = some c :=
    List.getElem?_set_eq_of_lt c (by rw [← string_length_data]; exact hi)
  rw [hdata] at h2
  exact hc h2

lemma mutateAt_ne_empty (s : String) (i : Nat) (c : Char)
    (hs : s ≠ "") : mutateAt s i c ≠ "" := by
  intro h
  apply hs
  rw [string_eq_empty_iff] at h ⊢
  rw [← mutateAt_length s i c]
  exact h

/-- `verifyShuftiSignature` on strings coincides with the `JSValue`
embedding on string-typed inputs. -/
lemma verifyShuftiSignature_eq_js (hash : String → String) (secret b t : String) :
    verifyShuftiSignature hash secret b t =
      verifyShuftiSignatureJS hash secret (.str b) (.str t) := by
  unfold verifyShuftiSignature verifyShuftiSignatureJS jsFalsy jsToString
  by_cases hb : b = "" <;> by_cases ht : t = "" <;> simp [hb, ht]

/-! ## C4 — authenticity round trip and single-byte mutation -/

/-- C4: for every hash, secret and non-empty body (under the modelled
facts about hex digests: the tag is non-empty and trim-invariant),
`verify(body, sign(body, secret), secret)` is `true`; mutating any single
character of the tag makes it `false`; and mutating any single character
of the body makes it `false` provided the hash does not collide on the
two distinct preimages (the one-way-hash assumption of the spec,
instantiated at the concrete pair). -/
theorem signature_roundtrip_and_single_byte_mutation
    (hash : String → String) (body secret : String)
    (hbody : body ≠ "")
    (htag : signatureFor hash body secret ≠ "")
    (htrim : jsTrim (signatureFor hash body secret) =
      signatureFor hash body secret) :
    verifyShuftiSignature hash secret body (signatureFor hash body secret) = true
    ∧ (∀ i c, i < (signatureFor hash body secret).length →
        (signatureFor hash body secret).data[i]? ≠ some c →
        verifyShuftiSignature hash secret body
          (mutateAt (signatureFor hash body secret) i c) = false)
    ∧ (∀ i c, i < body.length → body.data[i]? ≠ some c →
        signatureFor hash (mutateAt body i c) secret ≠
          signatureFor hash body secret →
        verifyShuftiSignature hash secret (mutateAt body i c)
          (signatureFor hash body secret) = false) := by
  refine ⟨?_, ?_, ?_⟩
  · unfold verifyShuftiSignature
    rw [if_neg (by rintro (h | h); exact hbody h; exact htag h)]
    rw [htrim]
    exact beq_self_eq_true _
  · intro i c hi hc
    have hmne : mutateAt (signatureFor hash body secret) i c ≠
        signatureFor hash body secret :=
      mutateAt_ne _ i c hi hc
    have hmlen := mutateAt_length (signatureFor hash body secret) i c
    have hm0 : mutateAt (signatureFor hash body secret) i c ≠ "" :=
      mutateAt_ne_empty _ i c htag
    unfold verifyShuftiSignature
    rw [if_neg (by rintro (h | h); exact hbody h; exact hm0 h)]
    rw [beq_eq_false_iff_ne]
    intro heq
    apply hmne
    have hle := jsTrim_length_le (mutateAt (signatureFor hash body secret) i c)
    have hlen : (jsTrim (mutateAt (signatureFor hash body secret) i c)).length =
        (mutateAt (signatureFor hash body secret) i c).length := by
      rw [← heq, hmlen]
    rw [← jsTrim_eq_of_length _ hlen, ← heq]
  · intro i c hi hc hcol
    have hm0 : mutateAt body i c ≠ "" := mutateAt_ne_empty _ i c hbody
    unfold verifyShuftiSignature
    rw [if_neg (by rintro (h | h); exact hm0 h; exact htag h)]
    rw [beq_eq_false_iff_ne, htrim]
    exact hcol

/-- A concrete injective whitespace-free stand-in for the hash, used only
to instantiate theorems at concrete inputs. -/
def demoHash (s : String) : String := "#" ++ s ++ "#"

theorem signature_roundtrip_and_single_byte_mutation_witness :
    verifyShuftiSignature demoHash "sek" "body"
      (signatureFor demoHash "body" "sek") = true
    ∧ verifyShuftiSignature demoHash "sek" "body"
        (mutateAt (signatureFor demoHash "body" "sek") 0 'z') = false
    ∧ verifyShuftiSignature demoHash "sek" (mutateAt "body" 0 'z')
        (signatureFor demoHash "body" "sek") = false := by
  have h := signature_roundtrip_and_single_byte_mutation demoHash "body" "sek"
    (by decide) (by decide) (by decide)
  exact ⟨h.1, h.2.1 0 'z' (by decide) (by decide),
    h.2.2 0 'z' (by decide) (by decide) (by decide)⟩

/-! ## C5 — verification is failure-safe and total -/

/-- C5: over arbitrary JavaScript inputs, an empty body or an empty tag
makes verification return `false`, and on any input the function returns
a boolean (the embedding is a total function into `Bool` — every branch
of the source coerces with `String(...)` before hashing and therefore
never throws). -/
theorem verify_signature_failure_safe (hash : String → String)
    (secret : String) (body tag : JSValue) :
    ((body = JSValue.str "" ∨ tag = JSValue.str "") →
      verifyShuftiSignatureJS hash secret body tag = false)
    ∧ (verifyShuftiSignatureJS hash secret body tag = true ∨
       verifyShuftiSignatureJS hash secret body tag = false) := by
  constructor
  · rintro (rfl | rfl)
    · simp [verifyShuftiSignatureJS, jsFalsy]
    · simp [verifyShuftiSignatureJS, jsFalsy]
  · cases h : verifyShuftiSignatureJS hash secret body tag
    · exact Or.inr rfl
    · exact Or.inl rfl

theorem verify_signature_failure_safe_witness :
    verifyShuftiSignatureJS demoHash "sek" (JSValue.str "") JSValue.null = false :=
  (verify_signature_failure_safe demoHash "sek" (JSValue.str "") JSValue.null).1
    (Or.inl rfl)

/-! ## C7 — rate guard advisory characterization -/

lemma pruned_getLast (ts : List Int) (nowMs : Int) :
    ((ts ++ [nowMs]).dropWhile (fun t => 60000 < nowMs - t)).getLast? =
      some nowMs := by
  rw [List.dropWhile_append]
  split
  · simp [List.dropWhile_cons]
  · exact List.getLast?_concat _

lemma guard_step_emitted (cfg : Config) (label : String) (nowMs : Int)
    (nowIso : String) (ts : List Int) (store : Store) :
    (registerLocalRateAndMaybeAlert cfg label nowMs nowIso ts store).emitted.length =
      if cfg.PER_MINUTE_LIMIT <
        (registerLocalRateAndMaybeAlert cfg label nowMs nowIso ts store).timestamps.length
      then 1 else 0 := by
  by_cases h : cfg.PER_MINUTE_LIMIT <
      ((ts ++ [nowMs]).dropWhile (fun t => 60000 < nowMs - t)).length <;>
    simp [registerLocalRateAndMaybeAlert, h]

lemma guard_step_logs (cfg : Config) (label : String) (nowMs : Int)
    (nowIso : String) (ts : List Int) (store : Store) :
    (registerLocalRateAndMaybeAlert cfg label nowMs nowIso ts store).logs.length =
      (registerLocalRateAndMaybeAlert cfg label nowMs nowIso ts store).emitted.length := by
  by_cases h : cfg.PER_MINUTE_LIMIT <
      ((ts ++ [nowMs]).dropWhile (fun t => 60000 < nowMs - t)).length <;>
    simp [registerLocalRateAndMaybeAlert, h]

lemma guard_step_timestamps (cfg : Config) (label : String) (nowMs : Int)
    (nowIso : String) (ts : List Int) (store : Store) :
    (registerLocalRateAndMaybeAlert cfg label nowMs nowIso ts store).timestamps =
      (ts ++ [nowMs]).dropWhile (fun t => 60000 < nowMs - t) := by
  by_cases h : cfg.PER_MINUTE_LIMIT <
      ((ts ++ [nowMs]).dropWhile (fun t => 60000 < nowMs - t)).length <;>
    simp [registerLocalRateAndMaybeAlert, h]

lemma guardRun_length (cfg : Config) (calls : List GuardCall) :
    ∀ (ts : List Int) (store : Store),
      (guardRun cfg ts store calls).length = calls.length := by
  induction calls with
  | nil => intro ts store; rfl
  | cons c rest ih =>
    intro ts store
    simp only [guardRun, List.length_cons]
    rw [ih]

lemma guardRun_mem (cfg : Config) (calls : List GuardCall) :
    ∀ (ts : List Int) (store : Store),
      ∀ o ∈ guardRun cfg ts store calls,
        o.emitted.length =
          if cfg.PER_MINUTE_LIMIT < o.timestamps.length then 1 else 0 := by
  induction calls with
  | nil => intro ts store o ho; cases ho
  | cons c rest ih =>
    intro ts store o ho
    simp only [guardRun, List.mem_cons] at ho
    rcases ho with rfl | ho
    · exact guard_step_emitted cfg c.contextLabel c.nowMs c.nowIso ts store
    · exact ih _ _ o ho

/-- C7: the rate guard is advisory-only and emits per call exactly when
the rolling window exceeds the threshold. For one accounted call: the new
window is the appended-then-pruned timestamp list (so its length is the
rolling count measured after appending and pruning), the call emits one
advisory record iff the count strictly exceeds `PER_MINUTE_LIMIT` and
none otherwise, advisory log events match advisory records one-to-one,
and the call itself is always accounted (its timestamp ends the window —
the guard returns normally, never rejecting or delaying the call). For
every sequence of accounted calls: the guard yields one normal output per
call, and every output of the run emits `1` advisory record when its
rolling count exceeds the threshold and `0` otherwise. -/
theorem rate_guard_advisory (cfg : Config) (ts : List Int) (store : Store)
    (label : String) (nowMs : Int) (nowIso : String)
    (calls : List GuardCall) :
    ((registerLocalRateAndMaybeAlert cfg label nowMs nowIso ts store).timestamps =
        (ts ++ [nowMs]).dropWhile (fun t => 60000 < nowMs - t)
      ∧ ((registerLocalRateAndMaybeAlert cfg label nowMs nowIso ts store).emitted.length = 1 ↔
          cfg.PER_MINUTE_LIMIT <
            (registerLocalRateAndMaybeAlert cfg label nowMs nowIso ts store).timestamps.length)
      ∧ ((registerLocalRateAndMaybeAlert cfg label nowMs nowIso ts store).emitted.length = 0 ↔
          (registerLocalRateAndMaybeAlert cfg label nowMs nowIso ts store).timestamps.length ≤
            cfg.PER_MINUTE_LIMIT)
      ∧ (registerLocalRateAndMaybeAlert cfg label nowMs nowIso ts store).logs.length =
          (registerLocalRateAndMaybeAlert cfg label nowMs nowIso ts store).emitted.length
      ∧ (registerLocalRateAndMaybeAlert cfg label nowMs nowIso ts store).timestamps.getLast? =
          some nowMs)
    ∧ (guardRun cfg ts store calls).length = calls.length
    ∧ (∀ o ∈ guardRun cfg ts store calls,
        o.emitted.length =
          if cfg.PER_MINUTE_LIMIT < o.timestamps.length then 1 else 0) := by
  refine ⟨⟨guard_step_timestamps cfg label nowMs nowIso ts store, ?_, ?_, ?_, ?_⟩,
    guardRun_length cfg calls ts store, guardRun_mem cfg calls ts store⟩
  · rw [guard_step_emitted cfg label nowMs nowIso ts store]
    split
    · next h => simpa using h
    · next h => simp [h]
  · rw [guard_step_emitted cfg label nowMs nowIso ts store]
    split
    · next h => simp; omega
    · next h => simp; omega
  · exact guard_step_logs cfg label nowMs nowIso ts store
  · rw [guard_step_timestamps cfg label nowMs nowIso ts store]
    exact pruned_getLast ts nowMs

/-- 61 identical calls against the default threshold of 60. -/
def c7Calls : List GuardCall :=
  List.replicate 61 ⟨0, "2025-01-01T00:00:00.000Z", "createVerificationSession"⟩

/-- The outputs of those 61 calls starting from an empty window and an
empty store. -/
def c7Run : List GuardOut := guardRun { PER_MINUTE_LIMIT := 60 } [] [] c7Calls

set_option maxRecDepth 100000 in
theorem rate_guard_advisory_witness :
    c7Run.length = c7Calls.length
    ∧ (c7Run.get ⟨60, by decide⟩).emitted.length =
        (if 60 < (c7Run.get ⟨60, by decide⟩).timestamps.length then 1 else 0)
    ∧ (c7Run.get ⟨60, by decide⟩).emitted.length = 1
    ∧ c7Run.map (fun o => o.emitted.length) = List.replicate 60 0 ++ [1] := by
  have h := rate_guard_advisory { PER_MINUTE_LIMIT := 60 } [] []
    "createVerificationSession" 0 "2025-01-01T00:00:00.000Z" c7Calls
  exact ⟨h.2.1, h.2.2 _ (List.get_mem _ _ _), by decide, by decide⟩

/-! ## C3 — resolver precedence: first ACCEPTED wins, else first ACTIVE -/

/-- A scanned entry that the resolver would return as reuse-accepted: a
`verification_request` row whose derived status is ACCEPTED. -/
def isAcceptedEntry (store : Store) (item : Row) : Bool :=
  decide (item.type = some "verification_request" ∧
    derivedStatus store item = VERIFICATION_ACCEPTED)

/-- A scanned entry the resolver would remember as the active candidate:
a `verification_request` row whose derived status is in the ACTIVE set. -/
def isActiveEntry (store : Store) (item : Row) : Bool :=
  decide (item.type = some "verification_request" ∧
    derivedStatus store item ∈ ACTIVE_EVENTS)

lemma scanTimeline_some (store : Store) (l : List Row) (c : CreateResult) :
    scanTimeline store l (some c) =
      match l.find? (isAcceptedEntry store) with
      | some e => some (.alreadyValidated e.reference (derivedStatus store e)
          (derivedUrl store e))
      | none => some c := by
  induction l with
  | nil => rfl
  | cons item rest ih =>
    by_cases hvr : item.type = some "verification_request"
    · by_cases hacc : derivedStatus store item = VERIFICATION_ACCEPTED
      · have hpa : isAcceptedEntry store item = true := by
          simp [isAcceptedEntry, hvr, hacc]
        rw [List.find?_cons_of_pos _ hpa]
        simp only [scanTimeline]
        rw [if_neg (by simp [hvr]), if_pos hacc]
      · have hpa : isAcceptedEntry store item = false := by
          simp [isAcceptedEntry, hvr, hacc]
        rw [List.find?_cons_of_neg _ (by simp [hpa])]
        simp only [scanTimeline]
        rw [if_neg (by simp [hvr]), if_neg hacc,
          if_neg (by simp)]
        exact ih
    · have hpa : isAcceptedEntry store item = false := by
        simp [isAcceptedEntry, hvr]
      rw [List.find?_cons_of_neg _ (by simp [hpa])]
      simp only [scanTimeline]
      rw [if_pos (by simp [hvr])]
      exact ih

/-- C3: the resolver loop, run on any scanned timeline with no candidate
remembered yet, returns reuse-accepted for the FIRST entry in scan order
whose derived status is ACCEPTED (short-circuiting the rest); otherwise
reuse-active for the FIRST entry whose derived status is in the ACTIVE
set (a later ACCEPTED therefore beats an earlier remembered ACTIVE
candidate); otherwise nothing, falling through to creation. -/
theorem resolver_scan_precedence (store : Store) (l : List Row) :
    scanTimeline store l none =
      match l.find? (isAcceptedEntry store) with
      | some e => some (.alreadyValidated e.reference (derivedStatus store e)
          (derivedUrl store e))
      | none =>
        match l.find? (isActiveEntry store) with
        | some e => some (.alreadyHasActive e.reference (derivedStatus store e)
            (derivedUrl store e))
        | none => none := by
  induction l with
  | nil => rfl
  | cons item rest ih =>
    by_cases hvr : item.type = some "verification_request"
    · by_cases hacc : derivedStatus store item = VERIFICATION_ACCEPTED
      · have hpa : isAcceptedEntry store item = true := by
          simp [isAcceptedEntry, hvr, hacc]
        rw [List.find?_cons_of_pos _ hpa]
        simp only [scanTimeline]
        rw [if_neg (by simp [hvr]), if_pos hacc]
      · have hpa : isAcceptedEntry store item = false := by
          simp [isAcceptedEntry, hvr, hacc]
        by_cases hact : derivedStatus store item ∈ ACTIVE_EVENTS
        · have hqa : isActiveEntry store item = true := by
            simp [isActiveEntry, hvr, hact]
          rw [List.find?_cons_of_neg _ (by simp [hpa])]
          simp only [scanTimeline]
          rw [if_neg (by simp [hvr]), if_neg hacc, if_pos (by simp [hact])]
          rw [scanTimeline_some]
          cases hfind : rest.find? (isAcceptedEntry store) with
          | none =>
            simp only [hfind]
            rw [List.find?_cons_of_pos _ hqa]
          | some e => simp only [hfind]
        · have hqa : isActiveEntry store item = false := by
            simp [isActiveEntry, hvr, hact]
          rw [List.find?_cons_of_neg _ (by simp [hpa]),
            List.find?_cons_of_neg _ (by simp [hqa])]
          simp only [scanTimeline]
          rw [if_neg (by simp [hvr]), if_neg hacc, if_neg (by simp [hact])]
          exact ih
    · have hpa : isAcceptedEntry store item = false := by
        simp [isAcceptedEntry, hvr]
      have hqa : isActiveEntry store item = false := by
        simp [isActiveEntry, hvr]
      rw [List.find?_cons_of_neg _ (by simp [hpa]),
        List.find?_cons_of_neg _ (by simp [hqa])]
      simp only [scanTimeline]
      rw [if_pos (by simp [hvr])]
      exact ih

/-! ## C9 — reuse paths perform no write and leave the guard alone -/

lemma createNewSession_created (cfg : Config) (hash : String → String)
    (parse : String → Option Payload) (clean : CleanInputs)
    (dc : DocumentConfig) (fetchOut : FetchOutcome) (nowMs : Int) (rand : Nat)
    (created_at : String) (ts : List Int) (store : Store) (r : CreateResult)
    (h : (createNewSession cfg hash parse clean dc fetchOut nowMs rand
        created_at ts store).result = .ok r) :
    ∃ ref url, r = .created ref url := by
  unfold createNewSession at h
  cases fetchOut with
  | networkError msg => simp at h
  | response res =>
    simp only at h
    cases hp : (if res.bodyText = "" then some {} else parse res.bodyText) with
    | none => rw [hp] at h; simp at h
    | some parsed =>
      rw [hp] at h
      simp only at h
      split at h
      · simp only [Except.ok.injEq] at h
        exact ⟨_, _, h.symm⟩
      · simp at h

/-- C9: whenever `createVerificationSession` returns a reuse result
(`alreadyValidated` or `alreadyHasActive`), it has written nothing to the
store and has not touched the rate-guard timestamp window — the reuse
paths return before the guard is accounted and before any persistence. -/
theorem reuse_paths_read_only (cfg : Config) (hash : String → String)
    (parse : String → Option Payload) (clean : CleanInputs)
    (dc : DocumentConfig) (fetchOut : FetchOutcome) (nowMs : Int) (rand : Nat)
    (created_at : String) (ts : List Int) (store : Store) (r : CreateResult)
    (hres : (createVerificationSession cfg hash parse clean dc fetchOut nowMs
        rand created_at ts store).result = .ok r)
    (hreuse : (∃ ref st url, r = .alreadyValidated ref st url) ∨
      (∃ ref st url, r = .alreadyHasActive ref st url)) :
    (createVerificationSession cfg hash parse clean dc fetchOut nowMs rand
        created_at ts store).store = store
    ∧ (createVerificationSession cfg hash parse clean dc fetchOut nowMs rand
        created_at ts store).timestamps = ts := by
  unfold createVerificationSession at hres ⊢
  cases hscan : scanTimeline store
      ((queryByPk store ("user_" ++ clean.userId) 50).reverse) none with
  | some r0 => exact ⟨rfl, rfl⟩
  | none =>
    rw [hscan] at hres
    obtain ⟨ref, url, rfl⟩ := createNewSession_created cfg hash parse clean dc
      fetchOut nowMs rand created_at ts store r hres
    rcases hreuse with ⟨_, _, _, h⟩ | ⟨_, _, _, h⟩ <;> simp at h

/-- A user timeline holding one pending `verification_request` row (its
own row doubles as the arbitrary-row meta fallback). -/
def c9Store : Store :=
  [{ pk := "user_u1", sk := "t1", ppk := some "r1",
     type := some "verification_request", reference := some "r1",
     event := some "request.pending" }]

theorem reuse_paths_read_only_witness :
    (createVerificationSession {} demoHash (fun _ => none)
        ⟨"u1", "e", none, "", "any"⟩ {} (.networkError "boom") 0 0 "t0" []
        c9Store).store = c9Store
    ∧ (createVerificationSession {} demoHash (fun _ => none)
        ⟨"u1", "e", none, "", "any"⟩ {} (.networkError "boom") 0 0 "t0" []
        c9Store).timestamps = [] :=
  reuse_paths_read_only {} demoHash (fun _ => none)
    ⟨"u1", "e", none, "", "any"⟩ {} (.networkError "boom") 0 0 "t0" [] c9Store
    (.alreadyHasActive (some "r1") "request.pending" none)
    (by decide) (Or.inr ⟨some "r1", "request.pending", none, rfl⟩)

/-! ## C2 — response validation order in the session creator -/

/-- C2: once a response body has been received and parsed, (1) a
non-success HTTP status with a valid authenticity tag does not abort —
the `verification_request` timeline row and the meta projection are still
persisted, `{reference, verificationUrl}` is returned, and the non-200 is
recorded as a non-fatal error event; (2) an invalid authenticity tag
throws a hard error with nothing persisted beyond the already-accounted
rate guard (the store and window are exactly the guard's output); (3) the
tag check runs after the non-200 check, so a non-200 response is
signature-checked before anything is stored: on a non-200 response with a
bad tag the error sink records the non-200 event first and the signature
error second, and the store stays at the guard's output. -/
theorem response_validation_order (cfg : Config) (hash : String → String)
    (parse : String → Option Payload) (clean : CleanInputs)
    (dc : DocumentConfig) (nowMs : Int) (rand : Nat) (created_at : String)
    (ts : List Int) (store : Store) (res : FetchResponse) (parsed : Payload)
    (hscan : scanTimeline store
      ((queryByPk store ("user_" ++ clean.userId) 50).reverse) none = none)
    (hparse : (if res.bodyText = "" then some {} else parse res.bodyText) =
      some parsed) :
    (res.ok = false →
      verifyShuftiSignature hash cfg.SECRET_KEY res.bodyText
        res.signatureHeader = true →
      (createVerificationSession cfg hash parse clean dc (.response res) nowMs
          rand created_at ts store).result =
        .ok (.created (generateReference nowMs rand)
          (jsOrNull parsed.verification_url))
      ∧ (createVerificationSession cfg hash parse clean dc (.response res)
          nowMs rand created_at ts store).store =
        putItem
          (putItem (registerLocalRateAndMaybeAlert cfg
              "createVerificationSession" nowMs created_at ts store).store
            (vrTimelineRow clean (generateReference nowMs rand) created_at
              (jsOrS parsed.event "unknown") (jsOrNull parsed.verification_url)
              (buildRequestPayload cfg (generateReference nowMs rand)
                clean.userEmail clean.userCountry
                (normalizeLocaleToLanguage cfg
                  (jsOrS clean.appLocale cfg.DEFAULT_LANGUAGE))
                clean.verificationMode dc)
              parsed
              (normalizeLocaleToLanguage cfg
                (jsOrS clean.appLocale cfg.DEFAULT_LANGUAGE))))
          (vrMetaRow clean (generateReference nowMs rand) created_at
            (jsOrS parsed.event "unknown") (jsOrNull parsed.verification_url)
            (normalizeLocaleToLanguage cfg
              (jsOrS clean.appLocale cfg.DEFAULT_LANGUAGE)))
      ∧ (createVerificationSession cfg hash parse clean dc (.response res)
          nowMs rand created_at ts store).errors = ["KYC response non-200"])
    ∧ (verifyShuftiSignature hash cfg.SECRET_KEY res.bodyText
        res.signatureHeader = false →
      (createVerificationSession cfg hash parse clean dc (.response res) nowMs
          rand created_at ts store).result = .error .invalidSignature
      ∧ (createVerificationSession cfg hash parse clean dc (.response res)
          nowMs rand created_at ts store).store =
        (registerLocalRateAndMaybeAlert cfg "createVerificationSession" nowMs
          created_at ts store).store
      ∧ (createVerificationSession cfg hash parse clean dc (.response res)
          nowMs rand created_at ts store).timestamps =
        (registerLocalRateAndMaybeAlert cfg "createVerificationSession" nowMs
          created_at ts store).timestamps)
    ∧ (res.ok = false →
      verifyShuftiSignature hash cfg.SECRET_KEY res.bodyText
        res.signatureHeader = false →
      (createVerificationSession cfg hash parse clean dc (.response res) nowMs
          rand created_at ts store).errors =
        ["KYC response non-200", "KYC response signature invalid"]) := by
  have hout : createVerificationSession cfg hash parse clean dc (.response res)
      nowMs rand created_at ts store =
      createNewSession cfg hash parse clean dc (.response res) nowMs rand
        created_at ts store := by
    unfold createVerificationSession
    rw [hscan]
  refine ⟨?_, ?_, ?_⟩
  · intro hok hsig
    rw [hout]
    unfold createNewSession
    simp only [hparse]
    simp [hok, hsig]
  · intro hsig
    rw [hout]
    unfold createNewSession
    simp only [hparse]
    simp [hsig]
  · intro hok hsig
    rw [hout]
    unfold createNewSession
    simp only [hparse]
    simp [hok, hsig]

/-- A parsed non-200 provider body. -/
def c2Payload : Payload :=
  { event := some "request.invalid", verification_url := some "https://v" }

/-- JSON parse model for the witness. -/
def c2Parse (s : String) : Option Payload :=
  if s = "B" then some c2Payload else none

/-- A 400 response with a valid tag. -/
def c2ResGood : FetchResponse :=
  ⟨false, 400, signatureFor demoHash "B" "", "B"⟩

/-- A 400 response with a wrong tag. -/
def c2ResBad : FetchResponse := ⟨false, 400, "wrong", "B"⟩

theorem response_validation_order_witness :
    (createVerificationSession {} demoHash c2Parse ⟨"u2", "e", none, "", "any"⟩
        {} (.response c2ResGood) 0 0 "t0" [] []).result =
      .ok (.created "ref-0-0" (some "https://v"))
    ∧ (createVerificationSession {} demoHash c2Parse ⟨"u2", "e", none, "", "any"⟩
        {} (.response c2ResGood) 0 0 "t0" [] []).errors =
      ["KYC response non-200"]
    ∧ (createVerificationSession {} demoHash c2Parse ⟨"u2", "e", none, "", "any"⟩
        {} (.response c2ResBad) 0 0 "t0" [] []).result = .error .invalidSignature
    ∧ (createVerificationSession {} demoHash c2Parse ⟨"u2", "e", none, "", "any"⟩
        {} (.response c2ResBad) 0 0 "t0" [] []).store = []
    ∧ (createVerificationSession {} demoHash c2Parse ⟨"u2", "e", none, "", "any"⟩
        {} (.response c2ResBad) 0 0 "t0" [] []).errors =
      ["KYC response non-200", "KYC response signature invalid"] := by
  have h1 := response_validation_order {} demoHash c2Parse
    ⟨"u2", "e", none, "", "any"⟩ {} 0 0 "t0" [] [] c2ResGood c2Payload
    (by decide) (by decide)
  have h2 := response_validation_order {} demoHash c2Parse
    ⟨"u2", "e", none, "", "any"⟩ {} 0 0 "t0" [] [] c2ResBad c2Payload
    (by decide) (by decide)
  refine ⟨((h1.1 rfl (by decide)).1).trans (by decide),
    (h1.1 rfl (by decide)).2.2, (h2.2.1 (by decide)).1,
    ((h2.2.1 (by decide)).2.1).trans (by decide), h2.2.2 rfl (by decide)⟩

/-! ## C1 — the webhook rejects bad input with no side effect -/

/-- C1: on any webhook input whose authenticity tag fails verification, or
whose tag verifies but whose body does not parse, `handleWebhook` returns
`{ok: false}` and leaves the store untouched — no timeline entry, no meta
mutation. (It also never throws: the embedding is a total function into
`WebhookOut`, not an `Except`.) -/
theorem webhook_rejects_without_side_effect (cfg : Config)
    (hash : String → String) (parse : String → Option Payload) (store : Store)
    (raw sig now : String)
    (h : verifyShuftiSignature hash cfg.SECRET_KEY raw sig = false ∨
      (verifyShuftiSignature hash cfg.SECRET_KEY raw sig = true ∧
        parse raw = none)) :
    (handleWebhook cfg hash parse raw sig now store).result = .failed
    ∧ (handleWebhook cfg hash parse raw sig now store).store = store := by
  unfold handleWebhook
  rcases h with h | ⟨h1, h2⟩
  · simp [h]
  · simp [h1, h2]

theorem webhook_rejects_without_side_effect_witness :
    ((handleWebhook {} demoHash (fun _ => none) "x" "bad" "t0" []).result =
        .failed
      ∧ (handleWebhook {} demoHash (fun _ => none) "x" "bad" "t0" []).store = [])
    ∧ ((handleWebhook {} demoHash (fun _ => none) "x"
          (signatureFor demoHash "x" "") "t0" []).result = .failed
      ∧ (handleWebhook {} demoHash (fun _ => none) "x"
          (signatureFor demoHash "x" "") "t0" []).store = []) :=
  ⟨webhook_rejects_without_side_effect {} demoHash (fun _ => none) [] "x"
      "bad" "t0" (Or.inl (by decide)),
    webhook_rejects_without_side_effect {} demoHash (fun _ => none) [] "x"
      (signatureFor demoHash "x" "") "t0" (Or.inr ⟨by decide, rfl⟩)⟩

/-! ## C10 — a valid webhook for an unknown reference creates records -/

lemma putItem_eq_append (store : Store) (r : Row)
    (h : ∀ x ∈ store, ¬(x.pk = r.pk ∧ x.sk = r.sk)) :
    putItem store r = store ++ [r] := by
  induction store with
  | nil => rfl
  | cons x rest ih =>
    unfold putItem
    rw [if_neg (h x (List.mem_cons_self x rest))]
    rw [ih (fun y hy => h y (List.mem_cons_of_mem x hy))]
    rfl

lemma user_ne_meta (a b : String) : "user_" ++ a ≠ "meta_" ++ b := by
  obtain ⟨la⟩ := a
  obtain ⟨lb⟩ := b
  intro h
  have hd : ('u' :: 's' :: 'e' :: 'r' :: '_' :: la) =
      ('m' :: 'e' :: 't' :: 'a' :: '_' :: lb) := congrArg String.data h
  simp at hd

/-- C10: a webhook whose tag verifies and whose body parses, for a
reference with no rows at all in the store (in particular the default
reference `"unknown"` when the payload carries none), still succeeds: it
returns `{ok: true, reference, event}`, appends a `webhook_event`
timeline row under the user partition derived from the payload's
`user_id` (else `"unknown"`), and appends a brand-new meta projection row
for that reference whose `status` is the webhook's event. -/
theorem webhook_creates_meta_for_unknown_reference (cfg : Config)
    (hash : String → String) (parse : String → Option Payload) (store : Store)
    (raw sig now : String) (p : Payload)
    (hsig : verifyShuftiSignature hash cfg.SECRET_KEY raw sig = true)
    (hparse : parse raw = some p)
    (hfresh : ∀ x ∈ store,
      x.ppk ≠ some (jsOrS p.reference "unknown")
      ∧ ¬(x.pk = "user_" ++ jsOrS p.user_id "unknown" ∧ x.sk = now)
      ∧ ¬(x.pk = "meta_" ++ jsOrS p.reference "unknown" ∧ x.sk = "meta")) :
    (handleWebhook cfg hash parse raw sig now store).result =
      .stored (jsOrS p.reference "unknown") (jsOrS p.event "unknown")
    ∧ (handleWebhook cfg hash parse raw sig now store).store =
      store ++
        [webhookEventRow (jsOrS p.user_id "unknown") now
          (jsOrS p.reference "unknown") (jsOrS p.event "unknown") p,
         webhookMetaRow cfg (jsOrS p.user_id "unknown") now
          (jsOrS p.reference "unknown") (jsOrS p.event "unknown") none]
    ∧ (webhookMetaRow cfg (jsOrS p.user_id "unknown") now
        (jsOrS p.reference "unknown") (jsOrS p.event "unknown") none).status =
      some (jsOrS p.event "unknown")
    ∧ (webhookEventRow (jsOrS p.user_id "unknown") now
        (jsOrS p.reference "unknown") (jsOrS p.event "unknown") p).pk =
      "user_" ++ jsOrS p.user_id "unknown" := by
  have hquery : queryByRef store (some (jsOrS p.reference "unknown")) = [] := by
    unfold queryByRef
    rw [List.filter_eq_nil_iff]
    intro x hx
    simp only [beq_iff_eq]
    exact (hfresh x hx).1
  have hmeta : resolveMetaScan store (some (jsOrS p.reference "unknown")) =
      none := by
    unfold resolveMetaScan
    rw [hquery]
    rfl
  have hput1 : putItem store
      (webhookEventRow (jsOrS p.user_id "unknown") now
        (jsOrS p.reference "unknown") (jsOrS p.event "unknown") p) =
      store ++ [webhookEventRow (jsOrS p.user_id "unknown") now
        (jsOrS p.reference "unknown") (jsOrS p.event "unknown") p] :=
    putItem_eq_append store _ (fun x hx => (hfresh x hx).2.1)
  have hput2 : putItem
      (store ++ [webhookEventRow (jsOrS p.user_id "unknown") now
        (jsOrS p.reference "unknown") (jsOrS p.event "unknown") p])
      (webhookMetaRow cfg (jsOrS p.user_id "unknown") now
        (jsOrS p.reference "unknown") (jsOrS p.event "unknown") none) =
      store ++
        [webhookEventRow (jsOrS p.user_id "unknown") now
          (jsOrS p.reference "unknown") (jsOrS p.event "unknown") p,
         webhookMetaRow cfg (jsOrS p.user_id "unknown") now
          (jsOrS p.reference "unknown") (jsOrS p.event "unknown") none] := by
    rw [putItem_eq_append, List.append_assoc]
    · rfl
    · intro x hx
      rcases List.mem_append.mp hx with hx | hx
      · exact (hfresh x hx).2.2
      · rw [List.mem_singleton.mp hx]
        rintro ⟨hpk, _⟩
        exact user_ne_meta (jsOrS p.user_id "unknown")
          (jsOrS p.reference "unknown") hpk
  unfold handleWebhook
  rw [if_pos hsig, hparse]
  refine ⟨rfl, ?_, rfl, rfl⟩
  show putItem (putItem store _) _ = _
  rw [hmeta]
  rw [show jsOrS ((none : Option Row).bind Row.userId)
    (jsOrS p.user_id "unknown") = jsOrS p.user_id "unknown" from rfl]
  rw [hput1, hput2]

/-- A webhook payload for a reference the store has never seen. -/
def c10Payload : Payload :=
  { reference := some "rX", event := some "verification.accepted",
    user_id := some "bob" }

theorem webhook_creates_meta_for_unknown_reference_witness :
    (handleWebhook {} demoHash
        (fun s => if s = "W" then some c10Payload else none) "W"
        (signatureFor demoHash "W" "") "t0" []).result =
      .stored "rX" "verification.accepted"
    ∧ (handleWebhook {} demoHash
        (fun s => if s = "W" then some c10Payload else none) "W"
        (signatureFor demoHash "W" "") "t0" []).store =
      [webhookEventRow "bob" "t0" "rX" "verification.accepted" c10Payload,
       webhookMetaRow {} "bob" "t0" "rX" "verification.accepted" none] := by
  have h := webhook_creates_meta_for_unknown_reference {} demoHash
    (fun s => if s = "W" then some c10Payload else none) [] "W"
    (signatureFor demoHash "W" "") "t0" c10Payload
    (by decide) (by decide) (by intro x hx; cases hx)
  exact ⟨h.1, h.2.1⟩

/-! ## C6 — manual status override -/

/-- Number of `status_change` timeline rows in the store. -/
def countStatusChange (store : Store) : Nat :=
  store.countP (fun r => r.type == some "status_change")

lemma mem_putItem (store : Store) (r : Row) :
    ∀ x ∈ putItem store r, x ∈ store ∨ x = r := by
  induction store with
  | nil =>
    intro x hx
    rcases List.mem_singleton.mp hx with rfl
    exact Or.inr rfl
  | cons y rest ih =>
    intro x hx
    unfold putItem at hx
    split at hx
    · rcases List.mem_cons.mp hx with rfl | hx
      · exact Or.inr rfl
      · exact Or.inl (List.mem_cons_of_mem y hx)
    · rcases List.mem_cons.mp hx with rfl | hx
      · exact Or.inl (List.mem_cons_self x rest)
      · rcases ih x hx with hx | rfl
        · exact Or.inl (List.mem_cons_of_mem y hx)
        · exact Or.inr rfl

lemma countStatusChange_putItem_meta (store : Store) (r : Row)
    (hr : r.type = some "meta")
    (hkey : ∀ x ∈ store, x.pk = r.pk → x.sk = r.sk →
      x.type ≠ some "status_change") :
    countStatusChange (putItem store r) = countStatusChange store := by
  induction store with
  | nil => simp [putItem, countStatusChange, hr]
  | cons x rest ih =>
    unfold putItem
    by_cases h : x.pk = r.pk ∧ x.sk = r.sk
    · rw [if_pos h]
      have hx : x.type ≠ some "status_change" :=
        hkey x (List.mem_cons_self x rest) h.1 h.2
      simp [countStatusChange, List.countP_cons, hr, hx]
    · rw [if_neg h]
      have ih' := ih (fun y hy => hkey y (List.mem_cons_of_mem x hy))
      simp only [countStatusChange, List.countP_cons] at ih' ⊢
      omega

/-- C6: `updateRecordStatus` on a reference with no resolvable meta
projection returns `false` and leaves the store untouched; on a resolved
meta it returns `true`, overwrites the meta row with the new
`status`/`lastEvent`/`lastEventAt`, and — when the `status_change` key is
fresh and the meta key does not hide a `status_change` row — appends
exactly one `status_change` timeline entry. -/
theorem update_record_status_spec (cfg : Config)
    (reference newStatus created_at : String) (store : Store) :
    (optOr
        (optOr (pickMeta ((queryByRef store (some reference)).reverse))
          ((queryByRef store (some reference)).reverse.head?))
        (getItem store ("meta_" ++ reference) "meta") = none →
      (updateRecordStatus cfg reference newStatus created_at store).result =
        false
      ∧ (updateRecordStatus cfg reference newStatus created_at store).store =
        store)
    ∧ (∀ m, optOr
        (optOr (pickMeta ((queryByRef store (some reference)).reverse))
          ((queryByRef store (some reference)).reverse.head?))
        (getItem store ("meta_" ++ reference) "meta") = some m →
      (updateRecordStatus cfg reference newStatus created_at store).result =
        true
      ∧ (updateRecordStatus cfg reference newStatus created_at store).store =
        putItem (putItem store (updateMetaRow cfg reference newStatus
          created_at m)) (statusChangeRow reference newStatus created_at m)
      ∧ (updateMetaRow cfg reference newStatus created_at m).status =
        some newStatus
      ∧ (updateMetaRow cfg reference newStatus created_at m).lastEvent =
        some newStatus
      ∧ (updateMetaRow cfg reference newStatus created_at m).lastEventAt =
        some created_at
      ∧ ((∀ x ∈ store, ¬(x.pk = "user_" ++ m.userId.getD "undefined" ∧
            x.sk = created_at)) →
         (∀ x ∈ store, x.pk = "meta_" ++ reference → x.sk = "meta" →
            x.type ≠ some "status_change") →
         countStatusChange
            (updateRecordStatus cfg reference newStatus created_at store).store =
          countStatusChange store + 1)) := by
  constructor
  · intro h
    unfold updateRecordStatus
    rw [h]
    exact ⟨rfl, rfl⟩
  · intro m h
    have hstore : (updateRecordStatus cfg reference newStatus created_at
        store).store =
        putItem (putItem store (updateMetaRow cfg reference newStatus
          created_at m)) (statusChangeRow reference newStatus created_at m) := by
      unfold updateRecordStatus
      rw [h]
    refine ⟨by unfold updateRecordStatus; rw [h], hstore, rfl, rfl, rfl, ?_⟩
    intro h1 h2
    rw [hstore]
    have hc1 : countStatusChange (putItem store (updateMetaRow cfg reference
        newStatus created_at m)) = countStatusChange store := by
      apply countStatusChange_putItem_meta _ _ rfl
      intro x hx hpk hsk
      exact h2 x hx hpk hsk
    have hfresh2 : ∀ x ∈ putItem store (updateMetaRow cfg reference newStatus
        created_at m),
        ¬(x.pk = (statusChangeRow reference newStatus created_at m).pk ∧
          x.sk = (statusChangeRow reference newStatus created_at m).sk) := by
      intro x hx
      rcases mem_putItem _ _ x hx with hx | rfl
      · exact h1 x hx
      · rintro ⟨hpk, _⟩
        exact user_ne_meta (m.userId.getD "undefined") reference hpk.symm
    rw [putItem_eq_append _ _ hfresh2]
    unfold countStatusChange at hc1 ⊢
    rw [List.countP_append, hc1]
    rfl

/-- A store holding one well-formed meta projection for `r1`. -/
def c6Store : Store :=
  [{ pk := "meta_r1", sk := "meta", ppk := some "r1", type := some "meta",
     userId := some "u1", reference := some "r1",
     status := some "request.pending", created_at := some "t1" }]

theorem update_record_status_spec_witness :
    ((updateRecordStatus {} "r2" "verification.declined" "t9" c6Store).result =
        false
      ∧ (updateRecordStatus {} "r2" "verification.declined" "t9" c6Store).store =
        c6Store)
    ∧ ((updateRecordStatus {} "r1" "verification.declined" "t9" c6Store).result =
        true
      ∧ countStatusChange
          (updateRecordStatus {} "r1" "verification.declined" "t9"
            c6Store).store = countStatusChange c6Store + 1) := by
  have h0 := (update_record_status_spec {} "r2" "verification.declined" "t9"
    c6Store).1 (by decide)
  have h1 := (update_record_status_spec {} "r1" "verification.declined" "t9"
    c6Store).2
    { pk := "meta_r1", sk := "meta", ppk := some "r1", type := some "meta",
      userId := some "u1", reference := some "r1",
      status := some "request.pending", created_at := some "t1" }
    (by decide)
  exact ⟨⟨h0.1, h0.2⟩, ⟨h1.1, h1.2.2.2.2.2 (by decide) (by decide)⟩⟩

/-! ## C8 — meta-resolution preference order (corrected)

The spec (and the claim) assert that the session-resolver scan and the
webhook reconciler fall back to a direct point lookup by the
`meta_<reference>` key after the secondary-index query. In the source that
third step exists only in `updateRecordStatus` and `getRecordByReference`;
the scan and the reconciler stop after `pickMeta(byRef) || byRef[0] || null`. -/

/-- A store presenting a meta row that the secondary index does not
return (the row lacks its `ppk` attribute — e.g. written by an external
tool; the claim quantifies over every state the store can present). -/
def c8Store : Store :=
  [{ pk := "meta_r1", sk := "meta", type := some "meta",
     userId := some "alice", reference := some "r1" }]

/-- A webhook payload naming that reference and carrying no `user_id`. -/
def c8Payload : Payload := { reference := some "r1" }

/-- Counterexample to C8 as stated: at this store the preference order
asserted by the claim (`resolveMetaSpec`, which ends with the point
lookup) resolves the meta row and would recover `userId = "alice"`, but
the resolution the resolver/reconciler actually perform
(`resolveMetaScan`) yields nothing — observable in `handleWebhook`, which
files the webhook row under `user_unknown` and overwrites the meta row
with `userId = "unknown"`. -/
theorem meta_resolution_order_counterexample :
    resolveMetaScan c8Store (some "r1") = none
    ∧ resolveMetaSpec c8Store "r1" =
      some { pk := "meta_r1", sk := "meta", type := some "meta",
             userId := some "alice", reference := some "r1" }
    ∧ jsOrS ((resolveMetaSpec c8Store "r1").bind Row.userId)
        (jsOrS c8Payload.user_id "unknown") = "alice"
    ∧ (handleWebhook {} demoHash
        (fun s => if s = "W8" then some c8Payload else none) "W8"
        (signatureFor demoHash "W8" "") "t8" c8Store).store.map
          (fun r => (r.pk, r.userId)) =
      [("meta_r1", some "unknown"), ("user_unknown", some "unknown")] := by
  refine ⟨by decide, by decide, by decide, by decide⟩

/-- C8 amended: for the session-resolver scan and the webhook reconciler
the preference order is — the row of type `meta` from the
secondary-index query by reference, else an arbitrary row from that
query, else NOTHING: no direct point lookup is consulted (an empty
secondary-index result resolves to `none` even when a `meta_<reference>`
row exists); the point-lookup fallback belongs to `updateRecordStatus`
(whose success on an empty index result is exactly the success of the
point lookup). -/
theorem meta_resolution_order_amended (store : Store) (ref : String)
    (cfg : Config) (newStatus created_at : String) :
    (∀ m, pickMeta ((queryByRef store (some ref)).reverse) = some m →
      resolveMetaScan store (some ref) = some m)
    ∧ (pickMeta ((queryByRef store (some ref)).reverse) = none →
      resolveMetaScan store (some ref) =
        ((queryByRef store (some ref)).reverse).head?)
    ∧ (queryByRef store (some ref) = [] →
      resolveMetaScan store (some ref) = none)
    ∧ (queryByRef store (some ref) = [] →
      (updateRecordStatus cfg ref newStatus created_at store).result =
        (getItem store ("meta_" ++ ref) "meta").isSome) := by
  refine ⟨?_, ?_, ?_, ?_⟩
  · intro m h
    unfold resolveMetaScan optOr
    rw [h]
  · intro h
    unfold resolveMetaScan optOr
    rw [h]
  · intro h
    unfold resolveMetaScan optOr
    rw [h]
    rfl
  · intro h
    unfold updateRecordStatus
    rw [h]
    cases hg : getItem store ("meta_" ++ ref) "meta" with
    | none => simp [optOr, pickMeta, hg]
    | some m => simp [optOr, pickMeta, hg]

theorem meta_resolution_order_amended_witness :
    resolveMetaScan c8Store (some "rZ") = none
    ∧ (updateRecordStatus {} "rZ" "s" "t" c8Store).result =
      (getItem c8Store "meta_rZ" "meta").isSome := by
  have h := meta_resolution_order_amended c8Store "rZ" {} "s" "t"
  exact ⟨h.2.2.1 (by decide), h.2.2.2 (by decide)⟩

end ShuftiPro
